import Mathlib

/-!
# Shift-scheduler: shallow embedding

This file embeds the two sibling JavaScript implementations of the
shift-scheduler core:

* the 3-role modular-rotation variant (Hospital / ODC / OFF with a
  lane-driven double-off), here suffixed `A`, and
* the single-role rotation variant (one duty person per week, with a
  lane-hides-ODC flag), here suffixed `B`.

Modelling conventions:

* A date-time is an integer count of minutes since an epoch midnight
  (floating local time; days are a constant 1440 minutes, which is the
  floating-time reading of the JS date arithmetic).
* `Date#setHours(h, m, 0, 0)` keeps the civil day of the receiver and
  replaces the time of day; out-of-range `h`/`m` roll over into later
  days exactly as in JS, because we simply add `h*60 + m` minutes to
  the day's midnight.
* JS `%` with divisor `0`, and indexing with a `NaN` index, are
  modelled explicitly: `w % 0` is `NaN` in JS and `NaN === 0` is
  `false`, so the lane tests are guarded by a divisor-zero check, and
  `people[i]` with `i` out of range (or `NaN`) is `undefined`, modelled
  as `none`.
* String interpolation of a possibly-`undefined` person renders the
  text `"undefined"`, as JS template literals do.
* The duration parameter `years` is a JS number; it is modelled as a
  rational, and `Math.floor` / `Math.ceil` as `Int.floor` / `Int.ceil`.
* `Array#sort` with the numeric comparator `(a, b) => a.start - b.start`
  is a stable sort by `start`; it is modelled by `List.mergeSort` with
  the Boolean relation `a.start ≤ b.start` (core's `mergeSort` is
  stable).
* `crypto.randomUUID()` and `new Date()` inside the serializer are
  ambient effects; they are passed in explicitly as a fresh-identifier
  stream `uidGen : Nat → String` (the k-th generated id) and a wall
  clock instant `now`.
-/

/-- Result of `parseTime` on an `"HH:MM"` string: the two numeric parts. -/
structure HM where
  h : Nat
  m : Nat
deriving Repr, DecidableEq

/-- A duty event.  The JS object is `{ title, start, end }`; the `end`
field is named `stop` here because `end` is a reserved word in Lean. -/
structure Event where
  title : String
  start : Int
  stop : Int
deriving Repr, DecidableEq

/-- JS `addDays(date, days)`: the same time of day, `days` civil days
later (floating time, constant 1440-minute days). -/
def addDays (date : Int) (days : Int) : Int :=
  date + days * 1440

/-- Midnight of the civil day containing `d` (floor, so it is also
correct for instants before the epoch). -/
def dayStart (d : Int) : Int :=
  1440 * Int.fdiv d 1440

/-- JS `date.setHours(h, m, 0, 0)`: keep the civil day, set the time of
day; out-of-range `h`/`m` roll over into subsequent days. -/
def setHM (d : Int) (t : HM) : Int :=
  dayStart d + (t.h * 60 + t.m : Nat)

/-- JS template-literal rendering of a possibly-`undefined` string. -/
def jsStr (o : Option String) : String :=
  o.getD "undefined"

/-- JS `(w % k) === 0` for natural `w`, `k`.  When `k = 0`, JS evaluates
`w % 0` to `NaN` and `NaN === 0` to `false`. -/
def jsModEqZero (w k : Nat) : Bool :=
  if k = 0 then false else w % k == 0

/-- JS `people[w % k]`: `undefined` (`none`) when `k = 0` (NaN index) or
when the reduced index is out of range. -/
def jsCycleGet (people : List String) (k w : Nat) : Option String :=
  if k = 0 then none else people[w % k]?

/-- `hospitalForWeek = (w) => people[w % n]`. -/
def hospitalForWeek (people : List String) (w : Nat) : Option String :=
  jsCycleGet people people.length w

/-- `odcForWeek = (w) => people[(w + 1) % n]`. -/
def odcForWeek (people : List String) (w : Nat) : Option String :=
  jsCycleGet people people.length (w + 1)

/-- `offForWeek = (w) => people[(w + 2) % n]`. -/
def offForWeek (people : List String) (w : Nat) : Option String :=
  jsCycleGet people people.length (w + 2)

/-- `totalDays = Math.floor(years * 365.25)`. -/
def totalDaysOf (years : ℚ) : Int :=
  Int.floor (years * (365.25 : ℚ))

/-- `end = addDays(start, totalDays)`. -/
def endOf (start : Int) (years : ℚ) : Int :=
  addDays start (totalDaysOf years)

/-- `weeksTotal = Math.ceil(totalDays / 7)`. -/
def weeksTotalOf (years : ℚ) : Int :=
  Int.ceil ((totalDaysOf years : ℚ) / 7)

/-- `weekStart = addDays(start, week * 7)`. -/
def weekStartOf (start : Int) (w : Nat) : Int :=
  addDays start (w * 7)

/-- The weekday offsets `day ∈ [0, 5)` that the inner loop actually
processes: the loop `break`s at the first `date > end`, which on the
list `[0, 1, 2, 3, 4]` is exactly `takeWhile (date ≤ end)`.  The
instant `endT` is the closure-captured constant `end` of the source,
i.e. `endOf start years`. -/
def inRangeDays (start endT : Int) (w : Nat) : List Nat :=
  (List.range 5).takeWhile
    (fun day => decide (addDays (weekStartOf start w) day ≤ endT))

/-- Parameters of the 3-role (`A`) generator, destructured at its head.
Time-of-day fields hold the `parseTime` result of the corresponding
`"HH:MM"` parameter, and `startDate` the instant `new Date(startDate)`. -/
structure ParamsA where
  startDate : Int
  years : ℚ
  rotationOrder : List String
  hospStartTime : HM
  hospEndTime : HM
  odcStartTime : HM
  odcEndTime : HM
  lanePatternWeeks : Nat
  laneStartTime : HM
  laneEndTime : HM
  showOff : Bool
  doubleOffOnLaneWeeks : Bool
  weekendStartTime : HM
  weekendEndTime : HM
  laneWeekendEvery : Nat
deriving Repr

/-- `isLaneWeek = (w) => (w % lanePatternWeeks) === 0` (variant A). -/
def isLaneWeekA (p : ParamsA) (w : Nat) : Bool :=
  jsModEqZero w p.lanePatternWeeks

/-- `isLaneWeekend = (w) => (w % laneWeekendEvery) === 0` (variant A). -/
def isLaneWeekendA (p : ParamsA) (w : Nat) : Bool :=
  jsModEqZero w p.laneWeekendEvery

/-- One weekday (Mon–Fri) iteration of the variant-A generator at
instant `date`: the unconditional HOSPITAL event, then the lane branch
(ODC Lane, plus up to two OFF events) or the normal branch (ODC, plus
an optional OFF event). -/
def weekdayEventsA (p : ParamsA) (w : Nat) (date : Int) : List Event :=
  let hospPerson := jsStr (hospitalForWeek p.rotationOrder w)
  let odcPerson := jsStr (odcForWeek p.rotationOrder w)
  let offPerson := jsStr (offForWeek p.rotationOrder w)
  [⟨"HOSPITAL " ++ hospPerson, setHM date p.hospStartTime, setHM date p.hospEndTime⟩]
  ++
  (if isLaneWeekA p w then
    [⟨"ODC Lane", setHM date p.laneStartTime, setHM date p.laneEndTime⟩]
    ++ (if p.showOff then
         [⟨"OFF " ++ odcPerson, setHM date p.odcStartTime, setHM date p.odcEndTime⟩]
       else [])
    ++ (if p.showOff && p.doubleOffOnLaneWeeks then
         [⟨"OFF " ++ offPerson, setHM date p.odcStartTime, setHM date p.odcEndTime⟩]
       else [])
  else
    [⟨"ODC " ++ odcPerson, setHM date p.odcStartTime, setHM date p.odcEndTime⟩]
    ++ (if p.showOff then
         [⟨"OFF " ++ offPerson, setHM date p.odcStartTime, setHM date p.odcEndTime⟩]
       else []))

/-- The weekend block of the variant-A generator for week `w`:
`sat = weekStart + 5`, `sun = weekStart + 6`; one event iff `sat ≤ end`
(`endT` is the closure-captured `end`). -/
def weekendEventsA (p : ParamsA) (endT : Int) (w : Nat) : List Event :=
  let sat := addDays (weekStartOf p.startDate w) 5
  let sun := addDays (weekStartOf p.startDate w) 6
  if sat ≤ endT then
    [⟨(if isLaneWeekendA p w then "Weekend Lane"
       else "Weekend " ++ jsStr (hospitalForWeek p.rotationOrder w)),
      setHM sat p.weekendStartTime, setHM sun p.weekendEndTime⟩]
  else []

/-- One full week of the variant-A generator, in emission order: all
in-range weekday events, then the weekend block. -/
def weekEventsA (p : ParamsA) (endT : Int) (w : Nat) : List Event :=
  (inRangeDays p.startDate endT w).flatMap
    (fun day => weekdayEventsA p w (addDays (weekStartOf p.startDate w) day))
  ++ weekendEventsA p endT w

/-- The `shifts` array of the variant-A generator just before the final
sort: weeks `0 ≤ week < weeksTotal` in order, with the constant
`end = addDays(start, totalDays)` computed once at the head. -/
def rawScheduleA (p : ParamsA) : List Event :=
  (List.range (weeksTotalOf p.years).toNat).flatMap
    (weekEventsA p (endOf p.startDate p.years))

/-- The comparator `(a, b) => a.start - b.start` as the Boolean order it
sorts by. -/
def startLE (a b : Event) : Bool :=
  decide (a.start ≤ b.start)

/-- `shifts.sort((a, b) => a.start - b.start)`: JS `Array#sort` is a
stable sort, modelled by the (stable) `List.mergeSort`. -/
def sortByStart (l : List Event) : List Event :=
  l.mergeSort startLE

/-- The variant-A generation entry point: validates the rotation order
(`n < 3` throws) before the loops, then returns the sorted schedule. -/
def generateScheduleA (p : ParamsA) : Except String (List Event) :=
  if p.rotationOrder.length < 3 then
    Except.error "Rotation order must include at least 3 people (Hospital / ODC / OFF)."
  else
    Except.ok (sortByStart (rawScheduleA p))

/-- Parameters of the single-role (`B`) generator. -/
structure ParamsB where
  startDate : Int
  years : ℚ
  lanePatternWeeks : Nat
  laneStartTime : HM
  laneEndTime : HM
  hospStartTime : HM
  hospEndTime : HM
  rotationOrder : List String
  rotationWeeks : Nat
  odcStartTime : HM
  odcEndTime : HM
  hideODCWhenLane : Bool
  weekendStartTime : HM
  weekendEndTime : HM
  laneWeekendEvery : Nat
deriving Repr

/-- `personForWeek = (w) => people[w % rotationWeeks]` (variant B;
no bounds check, so a cycle length larger than the order yields
`undefined`). -/
def personForWeek (p : ParamsB) (w : Nat) : Option String :=
  jsCycleGet p.rotationOrder p.rotationWeeks w

/-- `isLaneWeek` (variant B). -/
def isLaneWeekB (p : ParamsB) (w : Nat) : Bool :=
  jsModEqZero w p.lanePatternWeeks

/-- `isLaneWeekend` (variant B). -/
def isLaneWeekendB (p : ParamsB) (w : Nat) : Bool :=
  jsModEqZero w p.laneWeekendEvery

/-- One weekday iteration of the variant-B generator: HOSPITAL always;
ODC unless `hideODCWhenLane && isLaneWeek(week)`; ODC Lane on lane
weeks. -/
def weekdayEventsB (p : ParamsB) (w : Nat) (date : Int) : List Event :=
  let person := jsStr (personForWeek p w)
  [⟨"HOSPITAL " ++ person, setHM date p.hospStartTime, setHM date p.hospEndTime⟩]
  ++
  (if !(p.hideODCWhenLane && isLaneWeekB p w) then
    [⟨"ODC " ++ person, setHM date p.odcStartTime, setHM date p.odcEndTime⟩]
  else [])
  ++
  (if isLaneWeekB p w then
    [⟨"ODC Lane", setHM date p.laneStartTime, setHM date p.laneEndTime⟩]
  else [])

/-- The weekend block of the variant-B generator for week `w`
(`endT` is the closure-captured `end`). -/
def weekendEventsB (p : ParamsB) (endT : Int) (w : Nat) : List Event :=
  let sat := addDays (weekStartOf p.startDate w) 5
  let sun := addDays (weekStartOf p.startDate w) 6
  if sat ≤ endT then
    [⟨(if isLaneWeekendB p w then "Weekend Lane"
       else "Weekend " ++ jsStr (personForWeek p w)),
      setHM sat p.weekendStartTime, setHM sun p.weekendEndTime⟩]
  else []

/-- One full week of the variant-B generator. -/
def weekEventsB (p : ParamsB) (endT : Int) (w : Nat) : List Event :=
  (inRangeDays p.startDate endT w).flatMap
    (fun day => weekdayEventsB p w (addDays (weekStartOf p.startDate w) day))
  ++ weekendEventsB p endT w

/-- The `shifts` array of the variant-B generator before the sort. -/
def rawScheduleB (p : ParamsB) : List Event :=
  (List.range (weeksTotalOf p.years).toNat).flatMap
    (weekEventsB p (endOf p.startDate p.years))

/-- The variant-B generation entry point.  Note: it performs no
validation of the rotation order at all — it cannot fail. -/
def generateScheduleB (p : ParamsB) : List Event :=
  sortByStart (rawScheduleB p)

/-- JS `pad(n) = String(n).padStart(2, "0")` for a natural number. -/
def pad (n : Nat) : String :=
  if n < 10 then "0" ++ toString n else toString n

/-- Civil (proleptic Gregorian) date of a day count, day 0 being
1970-01-01; this is the calendar the JS `Date` getters read back
(year, month 1–12, day-of-month).  Standard days-to-civil algorithm. -/
def civilFromDays (z : Int) : Int × Nat × Nat :=
  let z' := z + 719468
  let era := Int.fdiv z' 146097
  let doe := (z' - era * 146097).toNat
  let yoe := (doe - doe / 1460 + doe / 36524 - doe / 146096) / 365
  let doy := doe - (365 * yoe + yoe / 4 - yoe / 100)
  let mp := (5 * doy + 2) / 153
  let d := doy - (153 * mp + 2) / 5 + 1
  let m := if mp < 10 then mp + 3 else mp - 9
  ((yoe : Int) + era * 400 + (if m ≤ 2 then 1 else 0), m, d)

/-- `toICSDateTime`: floating local time `YYYYMMDDTHHMM00` (year
unpadded as in JS `getFullYear`, month/day/hour/minute two-digit
padded, seconds literal `"00"`). -/
def toICSDateTime (t : Int) : String :=
  let days := Int.fdiv t 1440
  let rem := (t - 1440 * days).toNat
  let c := civilFromDays days
  toString c.1 ++ pad c.2.1 ++ pad c.2.2
    ++ "T" ++ pad (rem / 60) ++ pad (rem % 60) ++ "00"

/-- The seven lines pushed per event inside the `exportICS` loop.
`uid` stands for the freshly generated `crypto.randomUUID()` of this
iteration and `now` for the wall-clock instant read by `new Date()`. -/
def eventLines (uid : String) (now : Int) (e : Event) : List String :=
  ["BEGIN:VEVENT",
   "UID:" ++ uid,
   "DTSTAMP:" ++ toICSDateTime now,
   "SUMMARY:" ++ e.title,
   "DTSTART:" ++ toICSDateTime e.start,
   "DTEND:" ++ toICSDateTime e.stop,
   "END:VEVENT"]

/-- `exportICS(events)`: pushes the three header lines, then loops over
the events in input order pushing each event block, then the footer,
and joins with CRLF.  The ambient unique-id source is passed in as
`uidGen` (the id generated on the k-th loop iteration) and the wall
clock as `now`. -/
def exportICS (uidGen : Nat → String) (now : Int) (events : List Event) : String :=
  let header := ["BEGIN:VCALENDAR", "VERSION:2.0", "PRODID:-//ShiftScheduler//EN"]
  let looped :=
    events.foldl (fun (st : List String × Nat) e =>
      (st.1 ++ eventLines (uidGen st.2) now e, st.2 + 1)) (header, 0)
  String.intercalate "\r\n" (looped.1 ++ ["END:VCALENDAR"])

/-! ## Helper lemmas about the sort -/

theorem startLE_trans : ∀ (a b c : Event), startLE a b → startLE b c → startLE a c := by
  intro a b c hab hbc
  simp only [startLE, decide_eq_true_eq] at *
  omega

theorem startLE_total : ∀ (a b : Event), startLE a b || startLE b a := by
  intro a b
  simp only [startLE, Bool.or_eq_true, decide_eq_true_eq]
  omega

theorem sortByStart_perm (l : List Event) : List.Perm (sortByStart l) l :=
  List.mergeSort_perm l startLE

theorem sortByStart_length (l : List Event) : (sortByStart l).length = l.length :=
  (sortByStart_perm l).length_eq

theorem sortByStart_countP (q : Event → Bool) (l : List Event) :
    (sortByStart l).countP q = l.countP q :=
  (sortByStart_perm l).countP_eq q

theorem sortByStart_sorted (l : List Event) :
    (sortByStart l).Pairwise (fun a b => a.start ≤ b.start) := by
  have h := List.sorted_mergeSort startLE_trans startLE_total l
  exact h.imp (fun hab => by simpa [startLE, decide_eq_true_eq] using hab)

theorem sortByStart_filter_start (l : List Event) (t : Int) :
    (sortByStart l).filter (fun e => e.start == t)
      = l.filter (fun e => e.start == t) := by
  have hmem : ∀ e ∈ l.filter (fun e => e.start == t), ((e.start == t) = true) :=
    fun e he => (List.mem_filter.mp he).2
  have hA : (l.filter (fun e => e.start == t)).Pairwise (fun a b => startLE a b) := by
    apply List.pairwise_of_forall_mem_list
    intro a ha b hb
    have h1 := (List.mem_filter.mp ha).2
    have h2 := (List.mem_filter.mp hb).2
    simp only [beq_iff_eq] at h1 h2
    simp [startLE, h1, h2]
  have hsub : List.Sublist (l.filter (fun e => e.start == t)) (sortByStart l) :=
    List.sublist_mergeSort startLE_trans startLE_total hA (List.filter_sublist l)
  have hsub2 : List.Sublist (l.filter (fun e => e.start == t))
      ((sortByStart l).filter (fun e => e.start == t)) := by
    have h := hsub.filter (fun e => e.start == t)
    rwa [List.filter_eq_self.mpr hmem] at h
  have hperm : List.Perm ((sortByStart l).filter (fun e => e.start == t))
      (l.filter (fun e => e.start == t)) :=
    (sortByStart_perm l).filter _
  exact (hsub2.eq_of_length hperm.length_eq.symm).symm

/-! ## Concrete parameter sets used by witnesses and counterexamples -/

/-- `⌊(1/50) · 365.25⌋ = ⌊7.305⌋ = 7`: a duration fraction giving a
single 7-day span. -/
theorem totalDays_1_50 : totalDaysOf (1/50 : ℚ) = 7 := by
  norm_num [totalDaysOf]

theorem weeksTotal_1_50 : weeksTotalOf (1/50 : ℚ) = 1 := by
  rw [weeksTotalOf, totalDays_1_50]; norm_num

theorem end_0_1_50 : endOf 0 (1/50 : ℚ) = 10080 := by
  rw [endOf, totalDays_1_50]; decide

/-- The concrete scenario of the spec's §8: start on a Monday (epoch
day 0), a duration fraction giving `totalDays = 7`, rotation `[A,B,C]`,
lane every 4 weeks, off-visibility and double-off on, weekend-lane
cadence 4 (≠ 1).  Hospital 08:00–16:00, on-call and lane 16:00–22:00,
weekend 06:00–23:59. -/
def pA1 : ParamsA :=
  { startDate := 0
    years := 1/50
    rotationOrder := ["A", "B", "C"]
    hospStartTime := ⟨8, 0⟩
    hospEndTime := ⟨16, 0⟩
    odcStartTime := ⟨16, 0⟩
    odcEndTime := ⟨22, 0⟩
    lanePatternWeeks := 4
    laneStartTime := ⟨16, 0⟩
    laneEndTime := ⟨22, 0⟩
    showOff := true
    doubleOffOnLaneWeeks := true
    weekendStartTime := ⟨6, 0⟩
    weekendEndTime := ⟨23, 59⟩
    laneWeekendEvery := 4 }

theorem pA1_weeksTotal : weeksTotalOf pA1.years = 1 := weeksTotal_1_50

theorem pA1_end : endOf pA1.startDate pA1.years = 10080 := end_0_1_50

/-- Variant-A parameters with a 1-person rotation order (too short). -/
def pA0 : ParamsA :=
  { pA1 with rotationOrder := ["X"] }

/-- Variant-A parameters with both cadence divisors zero. -/
def pA2 : ParamsA :=
  { pA1 with lanePatternWeeks := 0, laneWeekendEvery := 0 }

/-- Variant-B parameters mirroring `pA1` (duty cycle of 3, ODC not
hidden on lane weeks). -/
def pB1 : ParamsB :=
  { startDate := 0
    years := 1/50
    lanePatternWeeks := 4
    laneStartTime := ⟨16, 0⟩
    laneEndTime := ⟨22, 0⟩
    hospStartTime := ⟨8, 0⟩
    hospEndTime := ⟨16, 0⟩
    rotationOrder := ["A", "B", "C"]
    rotationWeeks := 3
    odcStartTime := ⟨16, 0⟩
    odcEndTime := ⟨22, 0⟩
    hideODCWhenLane := false
    weekendStartTime := ⟨6, 0⟩
    weekendEndTime := ⟨23, 59⟩
    laneWeekendEvery := 4 }

theorem pB1_weeksTotal : weeksTotalOf pB1.years = 1 := weeksTotal_1_50

theorem pB1_end : endOf pB1.startDate pB1.years = 10080 := end_0_1_50

/-- `pB1` with ODC suppression on lane weeks switched on. -/
def pB2 : ParamsB :=
  { pB1 with hideODCWhenLane := true }

/-- `pB1` with an empty rotation order (cycle length 3 exceeds it). -/
def pB0 : ParamsB :=
  { pB1 with rotationOrder := [] }

theorem pB0_weeksTotal : weeksTotalOf pB0.years = 1 := weeksTotal_1_50

theorem pB0_end : endOf pB0.startDate pB0.years = 10080 := end_0_1_50

/-- `pB1` with both cadence divisors zero. -/
def pB3 : ParamsB :=
  { pB1 with lanePatternWeeks := 0, laneWeekendEvery := 0 }

/-! ## Claims -/

/-- **C1.** Under Policy A, for every week index `w ≥ 0` and every
rotation order of length `n ≥ 3`, the hospital person is
`order[w mod n]`, the on-call (ODC) person is `order[(w+1) mod n]`, and
the off person is `order[(w+2) mod n]`; all three roles advance
cyclically by one position per week (each week-`w` role equals the
hospital role of week `w+1`, resp. `w+2`). -/
theorem claim_C1 (people : List String) (w : Nat) (h : 3 ≤ people.length) :
    hospitalForWeek people w
      = some (people.get ⟨w % people.length, Nat.mod_lt _ (by omega)⟩)
    ∧ odcForWeek people w
      = some (people.get ⟨(w + 1) % people.length, Nat.mod_lt _ (by omega)⟩)
    ∧ offForWeek people w
      = some (people.get ⟨(w + 2) % people.length, Nat.mod_lt _ (by omega)⟩)
    ∧ odcForWeek people w = hospitalForWeek people (w + 1)
    ∧ offForWeek people w = hospitalForWeek people (w + 2) := by
  have hn : people.length ≠ 0 := by omega
  refine ⟨?_, ?_, ?_, ?_, ?_⟩ <;>
    simp [hospitalForWeek, odcForWeek, offForWeek, jsCycleGet, hn,
      List.getElem?_eq_getElem, Nat.mod_lt, List.get_eq_getElem]

/-- Witness for C1 at the order `[A, B, C]` and week 4: roles are
`B` / `C` / `A` and advancing the week by one advances each role. -/
theorem claim_C1_witness :
    3 ≤ (["A", "B", "C"] : List String).length
    ∧ hospitalForWeek ["A", "B", "C"] 4 = some "B"
    ∧ odcForWeek ["A", "B", "C"] 4 = some "C"
    ∧ offForWeek ["A", "B", "C"] 4 = some "A"
    ∧ odcForWeek ["A", "B", "C"] 4 = hospitalForWeek ["A", "B", "C"] 5
    ∧ offForWeek ["A", "B", "C"] 4 = hospitalForWeek ["A", "B", "C"] 6 := by
  have h := claim_C1 ["A", "B", "C"] 4 (by decide)
  exact ⟨by decide, h.1.trans (by decide), h.2.1.trans (by decide),
    h.2.2.1.trans (by decide), h.2.2.2.1, h.2.2.2.2⟩

/-- **C2 (amended).** Under Policy A (the 3-role variant) a rotation
order with fewer than 3 people makes the generation entry point fail
with the validation error before any event is generated.  Under
Policy B (the single-role variant) there is **no** such validation:
the entry point is total and an empty or too-short rotation order
still produces events (see the counterexample theorem). -/
theorem claim_C2 (p : ParamsA) (h : p.rotationOrder.length < 3) :
    generateScheduleA p
      = Except.error
          "Rotation order must include at least 3 people (Hospital / ODC / OFF)." := by
  simp [generateScheduleA, h]

/-- Witness for C2: a 1-person rotation order is rejected. -/
theorem claim_C2_witness :
    pA0.rotationOrder.length < 3
    ∧ generateScheduleA pA0
      = Except.error
          "Rotation order must include at least 3 people (Hospital / ODC / OFF)." :=
  ⟨by decide, claim_C2 pA0 (by decide)⟩

/-- **C2 counterexample.** The claim says that for *every* policy a
rotation order that is empty or too short fails validation and no
events are produced.  The Policy-B generator has no validation: with
an empty rotation order (and cycle length 3) over a 7-day span it
still returns 16 events, five of them titled `HOSPITAL undefined`. -/
theorem claim_C2_counterexample :
    pB0.rotationOrder = []
    ∧ generateScheduleB pB0 ≠ []
    ∧ (generateScheduleB pB0).length = 16
    ∧ (generateScheduleB pB0).countP
        (fun e => e.title == "HOSPITAL undefined") = 5 := by
  have hlen : (generateScheduleB pB0).length = 16 := by
    rw [generateScheduleB, sortByStart_length]
    simp only [rawScheduleB, pB0_weeksTotal, pB0_end]
    decide
  have hcount : (generateScheduleB pB0).countP
      (fun e => e.title == "HOSPITAL undefined") = 5 := by
    rw [generateScheduleB, sortByStart_countP]
    simp only [rawScheduleB, pB0_weeksTotal, pB0_end]
    decide
  refine ⟨rfl, ?_, hlen, hcount⟩
  intro hnil
  rw [hnil] at hlen
  exact absurd hlen (by decide)

/-- **C3.** Under Policy B, for every weekday iteration (the generator
invokes `weekdayEventsB` once per in-range weekday): an `ODC {person}`
event with the on-call window is emitted unless the week is a lane week
and `hideODCWhenLane` is set, in which case it is omitted; and on a
lane week an `ODC Lane` event with the lane window is additionally
emitted regardless of the suppression flag.  (The HOSPITAL event is
always first.) -/
theorem claim_C3 (p : ParamsB) (w : Nat) (date : Int) :
    (isLaneWeekB p w = true → p.hideODCWhenLane = true →
      weekdayEventsB p w date =
        [⟨"HOSPITAL " ++ jsStr (personForWeek p w),
           setHM date p.hospStartTime, setHM date p.hospEndTime⟩,
         ⟨"ODC Lane", setHM date p.laneStartTime, setHM date p.laneEndTime⟩])
    ∧ (isLaneWeekB p w = true → p.hideODCWhenLane = false →
      weekdayEventsB p w date =
        [⟨"HOSPITAL " ++ jsStr (personForWeek p w),
           setHM date p.hospStartTime, setHM date p.hospEndTime⟩,
         ⟨"ODC " ++ jsStr (personForWeek p w),
           setHM date p.odcStartTime, setHM date p.odcEndTime⟩,
         ⟨"ODC Lane", setHM date p.laneStartTime, setHM date p.laneEndTime⟩])
    ∧ (isLaneWeekB p w = false →
      weekdayEventsB p w date =
        [⟨"HOSPITAL " ++ jsStr (personForWeek p w),
           setHM date p.hospStartTime, setHM date p.hospEndTime⟩,
         ⟨"ODC " ++ jsStr (personForWeek p w),
           setHM date p.odcStartTime, setHM date p.odcEndTime⟩]) := by
  refine ⟨fun h1 h2 => ?_, fun h1 h2 => ?_, fun h1 => ?_⟩
  · simp [weekdayEventsB, h1, h2]
  · simp [weekdayEventsB, h1, h2]
  · simp [weekdayEventsB, h1]

/-- Witness for C3: lane week 0 with suppression (`pB2`) omits the ODC
event; lane week 0 without suppression (`pB1`) keeps it plus the lane
event; non-lane week 1 emits just HOSPITAL and ODC. -/
theorem claim_C3_witness :
    weekdayEventsB pB2 0 0 =
      [⟨"HOSPITAL A", 480, 960⟩, ⟨"ODC Lane", 960, 1320⟩]
    ∧ weekdayEventsB pB1 0 0 =
      [⟨"HOSPITAL A", 480, 960⟩, ⟨"ODC A", 960, 1320⟩, ⟨"ODC Lane", 960, 1320⟩]
    ∧ weekdayEventsB pB1 1 0 =
      [⟨"HOSPITAL B", 480, 960⟩, ⟨"ODC B", 960, 1320⟩] := by
  refine ⟨((claim_C3 pB2 0 0).1 (by decide) (by decide)).trans (by decide),
    ((claim_C3 pB1 0 0).2.1 (by decide) (by decide)).trans (by decide),
    ((claim_C3 pB1 1 0).2.2 (by decide)).trans (by decide)⟩

/-- **C4.** For every week `w` (in both variants), exactly one weekend
event is emitted when `sat = weekStart + 5` satisfies `sat ≤ end`, and
zero when `sat > end`; when emitted it spans the weekend start time of
day on `sat` through the weekend end time of day on `sun = weekStart +
6`, and is titled `Weekend Lane` when the week is a lane weekend, else
`Weekend {person}` with the hospital-role (A) resp. duty (B) person. -/
theorem claim_C4 (pA : ParamsA) (pB : ParamsB) (w : Nat) :
    (addDays (weekStartOf pA.startDate w) 5 ≤ endOf pA.startDate pA.years →
      weekendEventsA pA (endOf pA.startDate pA.years) w =
        [⟨(if isLaneWeekendA pA w then "Weekend Lane"
           else "Weekend " ++ jsStr (hospitalForWeek pA.rotationOrder w)),
          setHM (addDays (weekStartOf pA.startDate w) 5) pA.weekendStartTime,
          setHM (addDays (weekStartOf pA.startDate w) 6) pA.weekendEndTime⟩])
    ∧ (endOf pA.startDate pA.years < addDays (weekStartOf pA.startDate w) 5 →
      weekendEventsA pA (endOf pA.startDate pA.years) w = [])
    ∧ (addDays (weekStartOf pB.startDate w) 5 ≤ endOf pB.startDate pB.years →
      weekendEventsB pB (endOf pB.startDate pB.years) w =
        [⟨(if isLaneWeekendB pB w then "Weekend Lane"
           else "Weekend " ++ jsStr (personForWeek pB w)),
          setHM (addDays (weekStartOf pB.startDate w) 5) pB.weekendStartTime,
          setHM (addDays (weekStartOf pB.startDate w) 6) pB.weekendEndTime⟩])
    ∧ (endOf pB.startDate pB.years < addDays (weekStartOf pB.startDate w) 5 →
      weekendEventsB pB (endOf pB.startDate pB.years) w = []) := by
  refine ⟨fun h => ?_, fun h => ?_, fun h => ?_, fun h => ?_⟩
  · simp [weekendEventsA, h]
  · simp [weekendEventsA, not_le.mpr h]
  · simp [weekendEventsB, h]
  · simp [weekendEventsB, not_le.mpr h]

/-- Witness for C4: over the 7-day span of `pA1`/`pB1`, week 0 has
`sat = 7200 ≤ 10080` and yields exactly the one lane-titled weekend
event `06:00` Saturday – `23:59` Sunday, while week 1 has
`sat = 17280 > 10080` and yields none. -/
theorem claim_C4_witness :
    weekendEventsA pA1 (endOf pA1.startDate pA1.years) 0
      = [⟨"Weekend Lane", 7560, 10079⟩]
    ∧ weekendEventsA pA1 (endOf pA1.startDate pA1.years) 1 = []
    ∧ weekendEventsB pB1 (endOf pB1.startDate pB1.years) 0
      = [⟨"Weekend Lane", 7560, 10079⟩]
    ∧ weekendEventsB pB1 (endOf pB1.startDate pB1.years) 1 = [] := by
  have h0 := claim_C4 pA1 pB1 0
  have h1 := claim_C4 pA1 pB1 1
  refine ⟨(h0.1 ?_).trans (by decide), h1.2.1 ?_,
    (h0.2.2.1 ?_).trans (by decide), h1.2.2.2 ?_⟩
  · rw [pA1_end]; decide
  · rw [pA1_end]; decide
  · rw [pB1_end]; decide
  · rw [pB1_end]; decide

/-- **C5.** For every valid parameter set (both variants), the returned
schedule is sorted non-decreasing by event start time, and ties between
equal start times keep the original generation order: filtering the
output at any fixed start time gives exactly the same subsequence as
filtering the pre-sort emission list (the stable-sort property). -/
theorem claim_C5 (pA : ParamsA) (pB : ParamsB) (evs : List Event)
    (hA : generateScheduleA pA = Except.ok evs) :
    (evs.Pairwise (fun a b => a.start ≤ b.start)
      ∧ ∀ t : Int, evs.filter (fun e => e.start == t)
          = (rawScheduleA pA).filter (fun e => e.start == t))
    ∧ ((generateScheduleB pB).Pairwise (fun a b => a.start ≤ b.start)
      ∧ ∀ t : Int, (generateScheduleB pB).filter (fun e => e.start == t)
          = (rawScheduleB pB).filter (fun e => e.start == t)) := by
  have hevs : evs = sortByStart (rawScheduleA pA) := by
    rw [generateScheduleA] at hA
    split at hA
    · exact absurd hA (by simp)
    · exact (Except.ok.injEq _ _ ▸ hA).symm
  subst hevs
  exact ⟨⟨sortByStart_sorted _, fun t => sortByStart_filter_start _ t⟩,
    ⟨sortByStart_sorted _, fun t => sortByStart_filter_start _ t⟩⟩

/-- Witness for C5 at `pA1`/`pB1`: the generated schedules are sorted,
and at the tied start time 960 (16:00 of day 0, held by three events)
the output preserves the emission order. -/
theorem claim_C5_witness :
    generateScheduleA pA1 = Except.ok (sortByStart (rawScheduleA pA1))
    ∧ (sortByStart (rawScheduleA pA1)).Pairwise (fun a b => a.start ≤ b.start)
    ∧ (sortByStart (rawScheduleA pA1)).filter (fun e => e.start == 960)
        = (rawScheduleA pA1).filter (fun e => e.start == 960)
    ∧ (generateScheduleB pB1).Pairwise (fun a b => a.start ≤ b.start) := by
  have hok : generateScheduleA pA1 = Except.ok (sortByStart (rawScheduleA pA1)) := by
    have hn : ¬ (pA1.rotationOrder.length < 3) := by decide
    simp [generateScheduleA, hn]
  have h := claim_C5 pA1 pB1 (sortByStart (rawScheduleA pA1)) hok
  exact ⟨hok, h.1.1, h.1.2 960, h.2.1⟩

/-- **C6.** Under Policy A, on a lane week the weekday iteration never
emits a per-person `ODC {person}` event: its output is exactly
HOSPITAL, `ODC Lane`, then the optional OFF events.  With both
off-visibility and double-off enabled it is exactly the four events
HOSPITAL, `ODC Lane`, `OFF {displaced on-call person}`,
`OFF {normally-off person}` — i.e. exactly two OFF events, both using
the on-call time window. -/
theorem claim_C6 (p : ParamsA) (w : Nat) (date : Int)
    (hlane : isLaneWeekA p w = true) :
    (p.showOff = true → p.doubleOffOnLaneWeeks = true →
      weekdayEventsA p w date =
        [⟨"HOSPITAL " ++ jsStr (hospitalForWeek p.rotationOrder w),
           setHM date p.hospStartTime, setHM date p.hospEndTime⟩,
         ⟨"ODC Lane", setHM date p.laneStartTime, setHM date p.laneEndTime⟩,
         ⟨"OFF " ++ jsStr (odcForWeek p.rotationOrder w),
           setHM date p.odcStartTime, setHM date p.odcEndTime⟩,
         ⟨"OFF " ++ jsStr (offForWeek p.rotationOrder w),
           setHM date p.odcStartTime, setHM date p.odcEndTime⟩]
      ∧ (weekdayEventsA p w date).countP
          (fun e => e.title == "OFF " ++ jsStr (odcForWeek p.rotationOrder w)
            || e.title == "OFF " ++ jsStr (offForWeek p.rotationOrder w)) = 2)
    ∧ weekdayEventsA p w date =
        [⟨"HOSPITAL " ++ jsStr (hospitalForWeek p.rotationOrder w),
           setHM date p.hospStartTime, setHM date p.hospEndTime⟩,
         ⟨"ODC Lane", setHM date p.laneStartTime, setHM date p.laneEndTime⟩]
        ++ (if p.showOff then
             [⟨"OFF " ++ jsStr (odcForWeek p.rotationOrder w),
                setHM date p.odcStartTime, setHM date p.odcEndTime⟩]
           else [])
        ++ (if p.showOff && p.doubleOffOnLaneWeeks then
             [⟨"OFF " ++ jsStr (offForWeek p.rotationOrder w),
                setHM date p.odcStartTime, setHM date p.odcEndTime⟩]
           else []) := by
  have hhosp : ∀ a b : String, (("HOSPITAL " ++ a) == ("OFF " ++ b)) = false := by
    intro a b
    rw [beq_eq_false_iff_ne]
    intro hcontra
    have hd := congrArg String.data hcontra
    simp [String.data_append] at hd
  have hlaneoff : ∀ b : String, (("ODC Lane" : String) == ("OFF " ++ b)) = false := by
    intro b
    rw [beq_eq_false_iff_ne]
    intro hcontra
    have hd := congrArg String.data hcontra
    simp [String.data_append] at hd
  constructor
  · intro hshow hdouble
    have hlist : weekdayEventsA p w date =
        [⟨"HOSPITAL " ++ jsStr (hospitalForWeek p.rotationOrder w),
           setHM date p.hospStartTime, setHM date p.hospEndTime⟩,
         ⟨"ODC Lane", setHM date p.laneStartTime, setHM date p.laneEndTime⟩,
         ⟨"OFF " ++ jsStr (odcForWeek p.rotationOrder w),
           setHM date p.odcStartTime, setHM date p.odcEndTime⟩,
         ⟨"OFF " ++ jsStr (offForWeek p.rotationOrder w),
           setHM date p.odcStartTime, setHM date p.odcEndTime⟩] := by
      simp [weekdayEventsA, hlane, hshow, hdouble]
    refine ⟨hlist, ?_⟩
    rw [hlist]
    simp [List.countP_cons, hhosp, hlaneoff]
  · simp [weekdayEventsA, hlane]

/-- Witness for C6 at `pA1`, lane week 0, day-0 instant: exactly the
four events, with both OFF events (for B and C) in the 16:00–22:00
on-call window, and the OFF count is 2. -/
theorem claim_C6_witness :
    isLaneWeekA pA1 0 = true
    ∧ pA1.showOff = true
    ∧ pA1.doubleOffOnLaneWeeks = true
    ∧ weekdayEventsA pA1 0 0 =
        [⟨"HOSPITAL A", 480, 960⟩, ⟨"ODC Lane", 960, 1320⟩,
         ⟨"OFF B", 960, 1320⟩, ⟨"OFF C", 960, 1320⟩]
    ∧ (weekdayEventsA pA1 0 0).countP
        (fun e => e.title == "OFF " ++ jsStr (odcForWeek pA1.rotationOrder 0)
          || e.title == "OFF " ++ jsStr (offForWeek pA1.rotationOrder 0)) = 2 := by
  have h := (claim_C6 pA1 0 0 (by decide)).1 rfl rfl
  exact ⟨by decide, rfl, rfl, h.1.trans (by decide), h.2⟩

/-- **C7 counterexample.** In the claimed scenario (`pA1`: start on a
Monday, `totalDays = 7`, order `[A,B,C]`, Policy A, `lanePatternWeeks
= 4`, off-visibility and double-off on, `laneWeekendEvery = 4 ≠ 1`) the
claim predicts a weekend event titled `Weekend A`.  The generated
schedule contains **no** `Weekend A` event: week 0 satisfies
`0 mod laneWeekendEvery = 0` for every cadence ≥ 1, so the single
weekend event is titled `Weekend Lane`. -/
theorem claim_C7_counterexample :
    pA1.laneWeekendEvery ≠ 1
    ∧ generateScheduleA pA1 = Except.ok (sortByStart (rawScheduleA pA1))
    ∧ (sortByStart (rawScheduleA pA1)).countP
        (fun e => e.title == "Weekend A") = 0
    ∧ (sortByStart (rawScheduleA pA1)).countP
        (fun e => e.title == "Weekend Lane") = 1 := by
  have h0 : (rawScheduleA pA1).countP (fun e => e.title == "Weekend A") = 0 := by
    simp only [rawScheduleA, pA1_weeksTotal, pA1_end]
    decide
  have h1 : (rawScheduleA pA1).countP (fun e => e.title == "Weekend Lane") = 1 := by
    simp only [rawScheduleA, pA1_weeksTotal, pA1_end]
    decide
  have hn : ¬ (pA1.rotationOrder.length < 3) := by decide
  exact ⟨by decide, by simp [generateScheduleA, hn],
    (sortByStart_countP _ _).trans h0, (sortByStart_countP _ _).trans h1⟩

/-- **C7 (amended).** The concrete scenario — start date a Monday, a
duration fraction yielding `totalDays = 7`, rotation order `[A,B,C]`,
Policy A, `lanePatternWeeks = 4`, off-visibility on, double-off on,
`laneWeekendEvery = 4` — produces exactly 21 events: per each of the 5
weekdays one `HOSPITAL A`, one `ODC Lane`, one `OFF B` and one `OFF C`
(both OFF events in the 16:00–22:00 on-call window), plus one weekend
event which is titled `Weekend Lane` (week 0 is a lane weekend for
every cadence ≥ 1, so `Weekend A` cannot appear; and `years = 0`
itself yields `totalDays = 0`, hence an empty schedule, so only the
fraction reading of the scenario produces the 21 events). -/
theorem claim_C7 :
    generateScheduleA pA1 = Except.ok (sortByStart (rawScheduleA pA1))
    ∧ sortByStart (rawScheduleA pA1) =
      [⟨"HOSPITAL A", 480, 960⟩, ⟨"ODC Lane", 960, 1320⟩,
       ⟨"OFF B", 960, 1320⟩, ⟨"OFF C", 960, 1320⟩,
       ⟨"HOSPITAL A", 1920, 2400⟩, ⟨"ODC Lane", 2400, 2760⟩,
       ⟨"OFF B", 2400, 2760⟩, ⟨"OFF C", 2400, 2760⟩,
       ⟨"HOSPITAL A", 3360, 3840⟩, ⟨"ODC Lane", 3840, 4200⟩,
       ⟨"OFF B", 3840, 4200⟩, ⟨"OFF C", 3840, 4200⟩,
       ⟨"HOSPITAL A", 4800, 5280⟩, ⟨"ODC Lane", 5280, 5640⟩,
       ⟨"OFF B", 5280, 5640⟩, ⟨"OFF C", 5280, 5640⟩,
       ⟨"HOSPITAL A", 6240, 6720⟩, ⟨"ODC Lane", 6720, 7080⟩,
       ⟨"OFF B", 6720, 7080⟩, ⟨"OFF C", 6720, 7080⟩,
       ⟨"Weekend Lane", 7560, 10079⟩]
    ∧ (sortByStart (rawScheduleA pA1)).length = 21 := by
  have hraw : rawScheduleA pA1 =
      [⟨"HOSPITAL A", 480, 960⟩, ⟨"ODC Lane", 960, 1320⟩,
       ⟨"OFF B", 960, 1320⟩, ⟨"OFF C", 960, 1320⟩,
       ⟨"HOSPITAL A", 1920, 2400⟩, ⟨"ODC Lane", 2400, 2760⟩,
       ⟨"OFF B", 2400, 2760⟩, ⟨"OFF C", 2400, 2760⟩,
       ⟨"HOSPITAL A", 3360, 3840⟩, ⟨"ODC Lane", 3840, 4200⟩,
       ⟨"OFF B", 3840, 4200⟩, ⟨"OFF C", 3840, 4200⟩,
       ⟨"HOSPITAL A", 4800, 5280⟩, ⟨"ODC Lane", 5280, 5640⟩,
       ⟨"OFF B", 5280, 5640⟩, ⟨"OFF C", 5280, 5640⟩,
       ⟨"HOSPITAL A", 6240, 6720⟩, ⟨"ODC Lane", 6720, 7080⟩,
       ⟨"OFF B", 6720, 7080⟩, ⟨"OFF C", 6720, 7080⟩,
       ⟨"Weekend Lane", 7560, 10079⟩] := by
    simp only [rawScheduleA, pA1_weeksTotal, pA1_end]
    decide
  have hsorted : (rawScheduleA pA1).Pairwise (fun a b => startLE a b) := by
    rw [hraw]; decide
  have hss : sortByStart (rawScheduleA pA1) = rawScheduleA pA1 :=
    List.mergeSort_of_sorted hsorted
  have hn : ¬ (pA1.rotationOrder.length < 3) := by decide
  exact ⟨by simp [generateScheduleA, hn], hss.trans hraw,
    by rw [hss, hraw]; rfl⟩

/-- **C8.** For every parameter set the generator computes
`totalDays = ⌊years · 365.25⌋`, `end = start + totalDays` days and
`weeksTotal = ⌈totalDays / 7⌉` (first three conjuncts); and once a
weekday date of week `w` exceeds `end`, no weekday offset from that
date onward survives the loop in week `w`, and every later week
processes no weekday at all — the loop exits early rather than
skipping individual days.  (Both variants drive their weekday loops
through the same `inRangeDays`.) -/
theorem claim_C8 (start : Int) (years : ℚ) (w day : Nat) (hday : day < 5)
    (hover : endOf start years < addDays (weekStartOf start w) day) :
    totalDaysOf years = Int.floor (years * (365.25 : ℚ))
    ∧ endOf start years = addDays start (totalDaysOf years)
    ∧ weeksTotalOf years = Int.ceil ((totalDaysOf years : ℚ) / 7)
    ∧ (∀ d ∈ inRangeDays start (endOf start years) w, d < day)
    ∧ (∀ w', w < w' → inRangeDays start (endOf start years) w' = []) := by
  refine ⟨rfl, rfl, rfl, ?_, ?_⟩
  · intro d hd
    rw [inRangeDays] at hd
    have hpred := List.mem_takeWhile_imp hd
    simp only [decide_eq_true_eq] at hpred
    have hle : addDays (weekStartOf start w) d ≤ endOf start years := hpred
    by_contra hcon
    push_neg at hcon
    have hmono : addDays (weekStartOf start w) day
        ≤ addDays (weekStartOf start w) d := by
      simp only [addDays, weekStartOf]
      have : (day : Int) ≤ (d : Int) := by exact_mod_cast hcon
      omega
    omega
  · intro w' hw'
    rw [inRangeDays, show List.range 5 = 0 :: [1, 2, 3, 4] from rfl]
    apply List.takeWhile_cons_of_neg
    simp only [decide_eq_true_eq, not_le]
    simp only [addDays, weekStartOf] at hover ⊢
    have h7 : ((w : Int) + 1) * 7 * 1440 ≤ (w' : Int) * 7 * 1440 := by
      have : (w : Int) + 1 ≤ (w' : Int) := by exact_mod_cast hw'
      nlinarith
    have hd4 : (day : Int) * 1440 ≤ 4 * 1440 := by
      have : (day : Int) ≤ 4 := by exact_mod_cast Nat.lt_succ_iff.mp hday
      omega
    push_cast at hover ⊢
    omega

/-- Witness for C8 at `start = 0`, `years = 0` (so `end = start`),
week 0, day 1: day 1 is out of range, and week 1 processes no weekday. -/
theorem claim_C8_witness :
    (1 : Nat) < 5
    ∧ endOf 0 0 < addDays (weekStartOf 0 0) 1
    ∧ inRangeDays 0 (endOf 0 0) 1 = [] := by
  have h0 : endOf 0 (0 : ℚ) = 0 := by
    rw [endOf]; norm_num [totalDaysOf, addDays]
  refine ⟨by omega, ?_, ?_⟩
  · rw [h0]; decide
  · exact (claim_C8 0 0 0 1 (by omega) (by rw [h0]; decide)).2.2.2.2 1 (by omega)

/-- Unrolling the serializer loop: starting from any accumulated lines
`acc` and loop counter `i`, the fold appends exactly one seven-line
block per event, in input order. -/
theorem exportICS_loop (uidGen : Nat → String) (now : Int) :
    ∀ (events : List Event) (acc : List String) (i : Nat),
      (events.foldl (fun (st : List String × Nat) e =>
        (st.1 ++ eventLines (uidGen st.2) now e, st.2 + 1)) (acc, i)).1
      = acc ++ (events.enumFrom i).flatMap
          (fun ie => eventLines (uidGen ie.1) now ie.2) := by
  intro events
  induction events with
  | nil => intro acc i; simp
  | cons e rest ih =>
    intro acc i
    simp only [List.foldl_cons, List.enumFrom_cons, List.flatMap_cons]
    rw [ih]
    simp [List.append_assoc]

/-- **C9.** For every event list, the serializer returns the document
made of the header lines `BEGIN:VCALENDAR`, `VERSION:2.0`, and the
fixed `PRODID` product-identifier line, then for each event **in input
order**
(no re-sorting) the block `BEGIN:VEVENT`, `UID:` with the fresh id of
that iteration, `DTSTAMP:` with the wall-clock instant, `SUMMARY:` with
the title unescaped, `DTSTART:`/`DTEND:` rendered by the
`YYYYMMDDTHHMM00` floating-local-time formatter, `END:VEVENT`, then
`END:VCALENDAR`, all joined by CRLF. -/
theorem claim_C9 (uidGen : Nat → String) (now : Int) (events : List Event) :
    exportICS uidGen now events
      = String.intercalate "\r\n"
          (["BEGIN:VCALENDAR", "VERSION:2.0", "PRODID:-//ShiftScheduler//EN"]
           ++ events.enum.flatMap (fun ie =>
                ["BEGIN:VEVENT",
                 "UID:" ++ uidGen ie.1,
                 "DTSTAMP:" ++ toICSDateTime now,
                 "SUMMARY:" ++ ie.2.title,
                 "DTSTART:" ++ toICSDateTime ie.2.start,
                 "DTEND:" ++ toICSDateTime ie.2.stop,
                 "END:VEVENT"])
           ++ ["END:VCALENDAR"]) := by
  have hloop := exportICS_loop uidGen now events
    ["BEGIN:VCALENDAR", "VERSION:2.0", "PRODID:-//ShiftScheduler//EN"] 0
  simp only [exportICS]
  rw [hloop]
  simp [List.enum, eventLines, List.append_assoc]

/-- **C10.** A cadence divisor of 0 (violating the spec's ≥ 1
constraint) does not make generation fail: JS evaluates `w % 0` to
`NaN`, which never equals 0, so the lane test (resp. the lane-weekend
test) is `false` for every week.  Consequently, with
`lanePatternWeeks = 0` every weekday iteration takes the non-lane
branch (no `ODC Lane` events), and with `laneWeekendEvery = 0` every
in-range weekend event is titled `Weekend {person}`; the variant-A
entry point still succeeds whenever the rotation order is long enough
(and the variant-B entry point is total by construction). -/
theorem claim_C10 (pA : ParamsA) (pB : ParamsB) :
    (pA.lanePatternWeeks = 0 →
      (∀ w, isLaneWeekA pA w = false)
      ∧ (∀ w date, weekdayEventsA pA w date =
          [⟨"HOSPITAL " ++ jsStr (hospitalForWeek pA.rotationOrder w),
             setHM date pA.hospStartTime, setHM date pA.hospEndTime⟩,
           ⟨"ODC " ++ jsStr (odcForWeek pA.rotationOrder w),
             setHM date pA.odcStartTime, setHM date pA.odcEndTime⟩]
          ++ (if pA.showOff then
               [⟨"OFF " ++ jsStr (offForWeek pA.rotationOrder w),
                  setHM date pA.odcStartTime, setHM date pA.odcEndTime⟩]
             else [])))
    ∧ (pA.laneWeekendEvery = 0 →
      (∀ w, isLaneWeekendA pA w = false)
      ∧ (∀ w, weekendEventsA pA (endOf pA.startDate pA.years) w =
          if addDays (weekStartOf pA.startDate w) 5 ≤ endOf pA.startDate pA.years then
            [⟨"Weekend " ++ jsStr (hospitalForWeek pA.rotationOrder w),
              setHM (addDays (weekStartOf pA.startDate w) 5) pA.weekendStartTime,
              setHM (addDays (weekStartOf pA.startDate w) 6) pA.weekendEndTime⟩]
          else []))
    ∧ (3 ≤ pA.rotationOrder.length →
        generateScheduleA pA = Except.ok (sortByStart (rawScheduleA pA)))
    ∧ (pB.lanePatternWeeks = 0 →
      (∀ w, isLaneWeekB pB w = false)
      ∧ (∀ w date, weekdayEventsB pB w date =
          [⟨"HOSPITAL " ++ jsStr (personForWeek pB w),
             setHM date pB.hospStartTime, setHM date pB.hospEndTime⟩,
           ⟨"ODC " ++ jsStr (personForWeek pB w),
             setHM date pB.odcStartTime, setHM date pB.odcEndTime⟩]))
    ∧ (pB.laneWeekendEvery = 0 →
      (∀ w, isLaneWeekendB pB w = false)
      ∧ (∀ w, weekendEventsB pB (endOf pB.startDate pB.years) w =
          if addDays (weekStartOf pB.startDate w) 5 ≤ endOf pB.startDate pB.years then
            [⟨"Weekend " ++ jsStr (personForWeek pB w),
              setHM (addDays (weekStartOf pB.startDate w) 5) pB.weekendStartTime,
              setHM (addDays (weekStartOf pB.startDate w) 6) pB.weekendEndTime⟩]
          else [])) := by
  refine ⟨fun h => ⟨fun w => ?_, fun w date => ?_⟩,
    fun h => ⟨fun w => ?_, fun w => ?_⟩,
    fun h => ?_,
    fun h => ⟨fun w => ?_, fun w date => ?_⟩,
    fun h => ⟨fun w => ?_, fun w => ?_⟩⟩
  · simp [isLaneWeekA, jsModEqZero, h]
  · simp [weekdayEventsA, isLaneWeekA, jsModEqZero, h]
  · simp [isLaneWeekendA, jsModEqZero, h]
  · simp [weekendEventsA, isLaneWeekendA, jsModEqZero, h]
  · have hn : ¬ (pA.rotationOrder.length < 3) := by omega
    simp [generateScheduleA, hn]
  · simp [isLaneWeekB, jsModEqZero, h]
  · simp [weekdayEventsB, isLaneWeekB, jsModEqZero, h]
  · simp [isLaneWeekendB, jsModEqZero, h]
  · simp [weekendEventsB, isLaneWeekendB, jsModEqZero, h]

/-- Witness for C10 at `pA2`/`pB3` (both cadence divisors 0, 3-person
order, 7-day span): week 0 is neither a lane week nor a lane weekend,
weekdays carry no `ODC Lane` event, the weekend event is
`Weekend A`, and variant-A generation succeeds. -/
theorem claim_C10_witness :
    pA2.lanePatternWeeks = 0
    ∧ pA2.laneWeekendEvery = 0
    ∧ isLaneWeekA pA2 0 = false
    ∧ isLaneWeekendA pA2 0 = false
    ∧ weekdayEventsA pA2 0 0 =
        [⟨"HOSPITAL A", 480, 960⟩, ⟨"ODC B", 960, 1320⟩, ⟨"OFF C", 960, 1320⟩]
    ∧ weekendEventsA pA2 (endOf pA2.startDate pA2.years) 0
        = [⟨"Weekend A", 7560, 10079⟩]
    ∧ generateScheduleA pA2 = Except.ok (sortByStart (rawScheduleA pA2))
    ∧ isLaneWeekB pB3 0 = false
    ∧ weekdayEventsB pB3 0 0 = [⟨"HOSPITAL A", 480, 960⟩, ⟨"ODC A", 960, 1320⟩]
    ∧ weekendEventsB pB3 (endOf pB3.startDate pB3.years) 0
        = [⟨"Weekend A", 7560, 10079⟩] := by
  have h := claim_C10 pA2 pB3
  have hA1 := h.1 rfl
  have hA2 := h.2.1 rfl
  have hA3 := h.2.2.1 (by decide)
  have hB1 := h.2.2.2.1 rfl
  have hB2 := h.2.2.2.2 rfl
  have hEndA : endOf pA2.startDate pA2.years = 10080 := end_0_1_50
  have hEndB : endOf pB3.startDate pB3.years = 10080 := end_0_1_50
  refine ⟨rfl, rfl, hA1.1 0, hA2.1 0, (hA1.2 0 0).trans (by decide), ?_,
    hA3, hB1.1 0, (hB1.2 0 0).trans (by decide), ?_⟩
  · refine (hA2.2 0).trans ?_
    rw [hEndA]
    decide
  · refine (hB2.2 0).trans ?_
    rw [hEndB]
    decide
